import Mathlib

/-!
Verification of the sync pipeline of the `telegram-bot-toko` repository.

The Python modules `src/data/validator.py`, `src/data/extractor.py`,
`src/data/downloader.py` and `scripts/sync.py` are shallowly embedded below:
pure computations become Lean functions, external effects (HTTP calls,
subprocess runs, the database connection, the filesystem) become explicit
outcome parameters, and Python exceptions become `Except` values.
-/

namespace TokoBot

/-- The exception hierarchy of `src/core/exceptions.py`.  All of them derive
from `TelegramBotError`; `otherError` stands for any exception outside that
hierarchy (caught by the generic `except Exception` in `sync.py`). -/
inductive PyError where
  | dropboxError (msg : String)
  | databaseError (msg : String)
  | validationError (msg : String)
  | telegramBotError (msg : String)
  | otherError (msg : String)
deriving DecidableEq, Repr

/-! ### String helpers

`str.lower()` and the `in` substring test used by `restore_database`. -/

/-- Character-wise lowercasing, embedding Python `str.lower()` (the marker and
diagnostics involved are ASCII, where Python lowercases per character). -/
def strLower (s : String) : String := ⟨s.data.map Char.toLower⟩

/-- Does `pat` occur at the start of `s`?  (Helper for the substring test.) -/
def matchAt : List Char → List Char → Bool
  | [], _ => true
  | _ :: _, [] => false
  | p :: ps, c :: cs => p == c && matchAt ps cs

/-- Python's `str.endswith` as a character-level suffix test. -/
def strEndsWith (s suf : String) : Bool := suf.data.isSuffixOf s.data

/-- Python's `pat in s` substring test on character lists. -/
def occursIn (pat : List Char) : List Char → Bool
  | [] => matchAt pat []
  | c :: cs => matchAt pat (c :: cs) || occursIn pat cs

/-! ### `src/data/validator.py` -/

/-- An in-memory view of a parsed CSV file (`pandas.read_csv` result):
the column names and the data rows, a cell being `none` when null. -/
structure Csv where
  columns : List String
  rows : List (List (Option String))
deriving DecidableEq, Repr

/-- `DataValidator.REQUIRED_COLUMNS`. -/
def REQUIRED_COLUMNS : List String :=
  ["namaitem", "konversi", "satuan", "hargapokok", "hargajual"]

/-- The reason component of `validate_csv`'s result.  The Python code returns
message strings; the constructors carry the payload each message is built
from (`missingColumns` carries the set difference the f-string interpolates). -/
inductive CsvReason where
  | missingColumns (cols : List String)
  | emptyFile
  | loadFailure (msg : String)
deriving DecidableEq, Repr

/-- `DataValidator.validate_csv`, the part after a successful `pd.read_csv`:
missing-column check, emptiness check; null values in required columns are
only logged as a warning and do not change the result. -/
def validate_csv (df : Csv) : Bool × Option CsvReason :=
  let missing_cols := REQUIRED_COLUMNS.filter (fun c => ¬ df.columns.contains c)
  if missing_cols ≠ [] then
    (false, some (CsvReason.missingColumns missing_cols))
  else if df.rows.isEmpty then
    (false, some CsvReason.emptyFile)
  else
    (true, none)

/-- `DataValidator.validate_csv` at its public interface: the whole body runs
inside `try/except Exception`, so a failing `pd.read_csv` (modelled as the
`Except.error` input) is converted to `(False, message)` instead of raising. -/
def validate_csv_io (load : Except String Csv) : Bool × Option CsvReason :=
  match load with
  | Except.error e => (false, some (CsvReason.loadFailure ("CSV validation failed: " ++ e)))
  | Except.ok df => validate_csv df

/-- `DataValidator.validate_backup_file`: raises `ValidationError` when the
path does not exist or the file has zero size, returns `True` otherwise. -/
def validate_backup_file (pathExists : Bool) (size : Nat) : Except PyError Bool :=
  if ¬ pathExists then
    Except.error (PyError.validationError "Backup file not found")
  else if size = 0 then
    Except.error (PyError.validationError "Backup file is empty")
  else
    Except.ok true

/-! ### `src/data/extractor.py` -/

/-- Outcome of the `psycopg2.connect` attempt in `ensure_database_running`.
psycopg2 signals every connection failure — unreachable host, refused port,
bad credentials, nonexistent database, timeout — as `OperationalError`,
which is exactly the class the `except` clause catches. -/
inductive ConnectOutcome where
  | connected
  | operationalError (msg : String)
deriving DecidableEq, Repr

/-- `DatabaseExtractor.ensure_database_running`: the result type is
`Except PyError Bool` to mirror that the Python function could in principle
raise; the definition shows it never does — `OperationalError` is caught and
turned into `False`. -/
def ensure_database_running (c : ConnectOutcome) : Except PyError Bool :=
  match c with
  | ConnectOutcome.connected => Except.ok true
  | ConnectOutcome.operationalError _ => Except.ok false

/-- Result of one `subprocess.run` in `restore_database`. -/
structure CmdResult where
  returncode : Int
  stderr : String
deriving DecidableEq, Repr

/-- The benign-warning marker `restore_database` looks for in lowercased
stderr. -/
def benignMarker : String := "errors ignored on restore"

/-- The per-command check of `restore_database`: a non-zero exit is tolerated
exactly when `'errors ignored on restore' in result.stderr.lower()`. -/
def isBenignFailure (r : CmdResult) : Bool :=
  occursIn benignMarker.data (strLower r.stderr).data

/-- The `for cmd, cmd_env in commands:` loop of `restore_database`: each
phase's exit status is inspected in order; a non-benign non-zero status
raises `DatabaseError` and stops the loop, otherwise the loop continues and
finally returns `True`. -/
def runPhases : List CmdResult → Except PyError Bool
  | [] => Except.ok true
  | r :: rs =>
    if r.returncode ≠ 0 ∧ ¬ isBenignFailure r then
      Except.error (PyError.databaseError ("Database restoration failed: " ++ r.stderr))
    else
      runPhases rs

/-- `DatabaseExtractor.restore_database`: runs exactly three external
commands (dropdb, createdb, pg_restore) through the tolerance loop. -/
def restore_database (dropRes createRes restoreRes : CmdResult) : Except PyError Bool :=
  runPhases [dropRes, createRes, restoreRes]

/-- A file of the exports directory: its name and its modification time. -/
structure ExportFile where
  name : String
  mtime : Int
deriving DecidableEq, Repr

/-- The descending-recency order `sorted(..., key=lambda p: p.stat().st_mtime,
reverse=True)` sorts by: `a` comes no later than `b` when `b`'s mtime is at
most `a`'s. -/
def recentOrder (a b : ExportFile) : Prop := b.mtime ≤ a.mtime

instance : DecidableRel recentOrder := fun a b => by
  unfold recentOrder; infer_instance

instance : IsTotal ExportFile recentOrder :=
  ⟨fun a b => le_total b.mtime a.mtime⟩

instance : IsTrans ExportFile recentOrder :=
  ⟨fun _ _ _ h h' => le_trans h' h⟩

/-- `self.config.paths.exports_dir.glob('*.csv')`. -/
def csvGlob (files : List ExportFile) : List ExportFile :=
  files.filter (fun f => strEndsWith f.name ".csv")

/-- `DatabaseExtractor.cleanup_old_files` acting on a directory listing.
`keep_count = keep_count or self.config.max_csv_files` replaces a `None`
*or a falsy `0`* argument by the configured bound; the `*.csv` files are
sorted by modification time descending and every file beyond position
`keep_count` is unlinked.  The result is the directory listing afterwards. -/
def cleanup_old_files (maxCsvFiles : Nat) (keepCount : Option Nat)
    (files : List ExportFile) : List ExportFile :=
  let keep : Nat :=
    match keepCount with
    | none => maxCsvFiles
    | some k => if k = 0 then maxCsvFiles else k
  let csv_files := List.insertionSort recentOrder (csvGlob files)
  let toDelete := csv_files.drop keep
  files.filter (fun f => ¬ (toDelete.map ExportFile.name).contains f.name)

/-! ### `src/data/downloader.py` -/

/-- One entry of the Dropbox `list_folder` response: name, display path and
the `server_modified` timestamp (modelled as an integer instant). -/
structure Entry where
  name : String
  path_display : String
  server_modified : Int
deriving DecidableEq, Repr

/-- `src/data/models.py` `BackupFile`. -/
structure BackupFile where
  name : String
  path : String
  modified : Int
deriving DecidableEq, Repr

/-- The `BackupFile(...)` construction inside `list_backups`. -/
def entryToBackup (e : Entry) : BackupFile :=
  { name := e.name, path := e.path_display, modified := e.server_modified }

/-- The descending order used by `sorted(files, key=lambda f: f.modified,
reverse=True)`. -/
def newestOrder (a b : BackupFile) : Prop := b.modified ≤ a.modified

instance : DecidableRel newestOrder := fun a b => by
  unfold newestOrder; infer_instance

instance : IsTotal BackupFile newestOrder :=
  ⟨fun a b => le_total b.modified a.modified⟩

instance : IsTrans BackupFile newestOrder :=
  ⟨fun _ _ _ h h' => le_trans h' h⟩

/-- The pure core of `list_backups`: keep the entries whose name ends in
`.i5bu`, build `BackupFile`s, and sort newest-first (Python's `sorted` is a
stable sort; so is insertion sort). -/
def listBackupsPure (entries : List Entry) : List BackupFile :=
  List.insertionSort newestOrder
    ((entries.filter (fun e => strEndsWith e.name ".i5bu")).map entryToBackup)

/-- Outcomes of the four remote HTTP interactions a `download_latest` run can
make: token refresh, folder listing, temporary-link issuance and the bulk
GET.  An `Except.error` stands for a `requests.RequestException` (connection
error, timeout, or a `raise_for_status` HTTP error). -/
structure Remote where
  tokenOut : Except String String
  listOut : Except String (List Entry)
  linkOut : Except String String
  fetchOut : Except String (List Nat)
deriving Repr

/-- `DropboxDownloader.refresh_access_token`: any `RequestException` is
wrapped into a `DropboxError`. -/
def refresh_access_token (r : Remote) : Except PyError String :=
  match r.tokenOut with
  | Except.ok t => Except.ok t
  | Except.error e =>
      Except.error (PyError.dropboxError ("Failed to refresh access token: " ++ e))

/-- `DropboxDownloader.list_backups`.  The inner `refresh_access_token` call
raises `DropboxError`, which is not a `RequestException`, so it propagates
unchanged through the `except` clause; a listing-call `RequestException` is
wrapped into `DropboxError("Failed to list backups: ...")`. -/
def list_backups (r : Remote) : Except PyError (List BackupFile) :=
  match refresh_access_token r with
  | Except.error e => Except.error e
  | Except.ok _ =>
    match r.listOut with
    | Except.error e =>
        Except.error (PyError.dropboxError ("Failed to list backups: " ++ e))
    | Except.ok entries => Except.ok (listBackupsPure entries)

/-- A filesystem path, as its list of components. -/
abbrev FsPath := List String

/-- The local filesystem visible to `download_latest`: the set of existing
directories and the files with their byte contents. -/
structure FileSystem where
  dirs : List FsPath
  files : List (FsPath × List Nat)
deriving Repr

/-- All initial segments of a path: the directories
`path.mkdir(parents=True, exist_ok=True)` guarantees to exist. -/
def initialSegs : FsPath → List FsPath
  | [] => [[]]
  | x :: xs => [] :: (initialSegs xs).map (x :: ·)

/-- `destination.parent.mkdir(parents=True, exist_ok=True)`: afterwards the
parent directory and all its ancestors exist. -/
def mkdirParents (fs : FileSystem) (parent : FsPath) : FileSystem :=
  { fs with dirs := initialSegs parent ++ fs.dirs }

/-- `destination.write_bytes(content)`: the destination now holds exactly the
downloaded bytes. -/
def writeBytes (fs : FileSystem) (p : FsPath) (content : List Nat) : FileSystem :=
  { fs with files := (p, content) :: fs.files.filter (fun f => f.1 ≠ p) }

/-- Look a file's content up in the filesystem. -/
def fileContent (fs : FileSystem) (p : FsPath) : Option (List Nat) :=
  (fs.files.find? (fun f => f.1 = p)).map Prod.snd

/-- `backups[0]` — the artifact `download_latest` goes on to fetch. -/
def selectLatest (backups : List BackupFile) : Option BackupFile := backups.head?

/-- `DropboxDownloader.download_latest`: list, fail on an empty list
(`DropboxError("No backup files found")` is raised inside the `try` but is
not a `RequestException`, so it propagates as is), refresh the token again,
get a temporary link, GET the bytes, create the destination's parent
directories and write the content; each `RequestException` on the way is
wrapped into `DropboxError("Failed to download backup: ...")`. -/
def download_latest (r : Remote) (fs : FileSystem) (destination : FsPath) :
    Except PyError (FsPath × FileSystem) :=
  match list_backups r with
  | Except.error e => Except.error e
  | Except.ok backups =>
    match selectLatest backups with
    | none => Except.error (PyError.dropboxError "No backup files found")
    | some _latest =>
      match refresh_access_token r with
      | Except.error e => Except.error e
      | Except.ok _ =>
        match r.linkOut with
        | Except.error e =>
            Except.error (PyError.dropboxError ("Failed to download backup: " ++ e))
        | Except.ok _url =>
          match r.fetchOut with
          | Except.error e =>
              Except.error (PyError.dropboxError ("Failed to download backup: " ++ e))
          | Except.ok content =>
            let fs1 := mkdirParents fs destination.dropLast
            let fs2 := writeBytes fs1 destination content
            Except.ok (destination, fs2)

/-! ### `scripts/sync.py` -/

/-- The six numbered steps of `main` plus the database readiness probe that
guards step 3. -/
inductive Stage where
  | download
  | validateBackup
  | readiness
  | restore
  | exportCsv
  | validateCsv
  | cleanup
deriving DecidableEq, Repr

/-- Pipeline order of the stages. -/
def Stage.idx : Stage → Nat
  | Stage.download => 0
  | Stage.validateBackup => 1
  | Stage.readiness => 2
  | Stage.restore => 3
  | Stage.exportCsv => 4
  | Stage.validateCsv => 5
  | Stage.cleanup => 6

/-- The full stage sequence of a successful run. -/
def allStages : List Stage :=
  [Stage.download, Stage.validateBackup, Stage.readiness, Stage.restore,
   Stage.exportCsv, Stage.validateCsv, Stage.cleanup]

/-- All external outcomes one `main` run can observe: configuration loading,
the remote store, the local filesystem, the backup file the validator then
inspects, the database connection probe, the three restore subprocesses, the
export query, the CSV re-read by the validator and the filesystem faults of
the cleanup unlinks. -/
structure SyncEnv where
  configOk : Bool
  remote : Remote
  fs : FileSystem
  destBackup : FsPath
  backupExists : Bool
  backupSize : Nat
  dbConnect : ConnectOutcome
  dropRes : CmdResult
  createRes : CmdResult
  restoreRes : CmdResult
  exportOut : Except String Unit
  csvLoad : Except String Csv
  cleanupOut : Except String Unit

/-- Did a given stage's contract succeed, as determined by the run's
environment alone? -/
def stageOk (env : SyncEnv) : Stage → Bool
  | Stage.download => (download_latest env.remote env.fs env.destBackup).toBool
  | Stage.validateBackup =>
      match validate_backup_file env.backupExists env.backupSize with
      | Except.ok b => b
      | Except.error _ => false
  | Stage.readiness =>
      match ensure_database_running env.dbConnect with
      | Except.ok b => b
      | Except.error _ => false
  | Stage.restore =>
      match restore_database env.dropRes env.createRes env.restoreRes with
      | Except.ok b => b
      | Except.error _ => false
  | Stage.exportCsv => env.exportOut.toBool
  | Stage.validateCsv => (validate_csv_io env.csvLoad).1
  | Stage.cleanup => env.cleanupOut.toBool

/-- `main` of `scripts/sync.py`: the linear step sequence inside one
`try`, every `TelegramBotError` and every other exception caught at the end
and turned into exit status 1, a completed run returning 0.  Besides the
exit status we record which stages actually started executing. -/
def runSync (env : SyncEnv) : Nat × List Stage :=
  if ¬ env.configOk then (1, []) else
  match download_latest env.remote env.fs env.destBackup with
  | Except.error _ => (1, allStages.take 1)
  | Except.ok _ =>
    match validate_backup_file env.backupExists env.backupSize with
    | Except.error _ => (1, allStages.take 2)
    | Except.ok b =>
      if ¬ b then (1, allStages.take 2) else
      match ensure_database_running env.dbConnect with
      | Except.error _ => (1, allStages.take 3)
      | Except.ok running =>
        if ¬ running then (1, allStages.take 3) else
        match restore_database env.dropRes env.createRes env.restoreRes with
        | Except.error _ => (1, allStages.take 4)
        | Except.ok restored =>
          if ¬ restored then (1, allStages.take 4) else
          match env.exportOut with
          | Except.error _ => (1, allStages.take 5)
          | Except.ok _ =>
            match validate_csv_io env.csvLoad with
            | (false, _) => (1, allStages.take 6)
            | (true, _) =>
              match env.cleanupOut with
              | Except.error _ => (1, allStages.take 7)
              | Except.ok _ => (0, allStages.take 7)

/-! ## Helper lemmas -/

/-- `matchAt` is preserved by mapping the same function over pattern and
text. -/
theorem matchAt_map_of_matchAt (f : Char → Char) :
    ∀ pat l : List Char, matchAt pat l = true → matchAt (pat.map f) (l.map f) = true := by
  intro pat
  induction pat with
  | nil => intro l _; simp [matchAt]
  | cons p ps ih =>
    intro l h
    cases l with
    | nil => simp [matchAt] at h
    | cons c cs =>
      simp only [matchAt, Bool.and_eq_true, beq_iff_eq] at h
      simp only [List.map_cons, matchAt, Bool.and_eq_true, beq_iff_eq]
      exact ⟨by rw [h.1], ih cs h.2⟩

/-- Substring occurrence is preserved by mapping the same function over
pattern and text. -/
theorem occursIn_map_of_occursIn (f : Char → Char) (pat : List Char) :
    ∀ l : List Char, occursIn pat l = true → occursIn (pat.map f) (l.map f) = true := by
  intro l
  induction l with
  | nil =>
    intro h
    simpa [occursIn] using matchAt_map_of_matchAt f pat [] h
  | cons c cs ih =>
    intro h
    simp only [occursIn, Bool.or_eq_true] at h
    simp only [List.map_cons, occursIn, Bool.or_eq_true]
    rcases h with h | h
    · exact Or.inl (by simpa using matchAt_map_of_matchAt f pat (c :: cs) h)
    · exact Or.inr (ih h)

/-- The benign marker is all-lowercase, so lowercasing fixes it. -/
theorem benignMarker_lower_fixed : benignMarker.data.map Char.toLower = benignMarker.data := by
  decide

/-- A literal occurrence of the (lowercase) marker in stderr survives the
`stderr.lower()` normalisation the code applies before testing. -/
theorem isBenignFailure_of_marker (r : CmdResult)
    (h : occursIn benignMarker.data r.stderr.data = true) : isBenignFailure r = true := by
  have := occursIn_map_of_occursIn Char.toLower benignMarker.data r.stderr.data h
  rw [benignMarker_lower_fixed] at this
  simpa [isBenignFailure, strLower] using this

/-! ## Claims -/

/-- C3: in `restore_database`'s command loop, a phase whose process exits
non-zero is tolerated — logged as a warning, execution proceeding to the next
phase — exactly when its stderr contains the benign marker
`"errors ignored on restore"`; any other non-zero exit raises
`DatabaseError`, aborting the remaining phases (and hence the pipeline). -/
theorem restore_database_benign_tolerance (r : CmdResult) (rs : List CmdResult) :
    (r.returncode ≠ 0 → occursIn benignMarker.data r.stderr.data = true →
      runPhases (r :: rs) = runPhases rs) ∧
    (r.returncode ≠ 0 → isBenignFailure r = false →
      runPhases (r :: rs) =
        Except.error (PyError.databaseError ("Database restoration failed: " ++ r.stderr))) ∧
    (∀ c rr, restore_database r c rr = runPhases [r, c, rr]) := by
  refine ⟨?_, ?_, fun c rr => rfl⟩
  · intro hrc hmark
    have hb := isBenignFailure_of_marker r hmark
    simp [runPhases, hrc, hb]
  · intro hrc hben
    simp [runPhases, hrc, hben]

/-- Witness for C3: a pg_restore phase exiting 1 with the marker (in mixed
case) in stderr is skipped over, so the two remaining phases decide the
result. -/
theorem restore_database_benign_tolerance_witness :
    runPhases [⟨1, "pg_restore: warning: errors ignored on restore: 2"⟩] = runPhases [] :=
  (restore_database_benign_tolerance
      ⟨1, "pg_restore: warning: errors ignored on restore: 2"⟩ []).1 (by decide) (by decide)

/-- C4: `validate_csv` fails with a reason listing exactly the missing
required columns when any of {namaitem, konversi, satuan, hargapokok,
hargajual} is absent; fails with the "empty" reason when all required
columns are present but there are zero data rows; and succeeds with
`(true, none)` whenever the required columns are present and at least one
row exists — regardless of null cells, which never cause a failure. -/
theorem validate_csv_cases (df : Csv) :
    (REQUIRED_COLUMNS.filter (fun c => ¬ df.columns.contains c) ≠ [] →
      validate_csv df =
        (false, some (CsvReason.missingColumns
          (REQUIRED_COLUMNS.filter (fun c => ¬ df.columns.contains c))))) ∧
    (REQUIRED_COLUMNS.filter (fun c => ¬ df.columns.contains c) = [] → df.rows = [] →
      validate_csv df = (false, some CsvReason.emptyFile)) ∧
    (REQUIRED_COLUMNS.filter (fun c => ¬ df.columns.contains c) = [] → df.rows ≠ [] →
      validate_csv df = (true, none)) := by
  refine ⟨?_, ?_, ?_⟩
  · intro h
    simp only [validate_csv]
    rw [if_pos h]
  · intro h hrows
    simp only [validate_csv]
    rw [if_neg (fun hne => hne h), if_pos (by simp [hrows])]
  · intro h hrows
    simp only [validate_csv]
    rw [if_neg (fun hne => hne h), if_neg (by simp [hrows])]

/-- Witness for C4: a file with all five required columns and one row whose
`konversi` and `hargapokok` cells are null still validates to
`(true, none)`. -/
theorem validate_csv_cases_witness :
    validate_csv ⟨["namaitem", "konversi", "satuan", "hargapokok", "hargajual"],
      [[some "Indomie", none, some "pcs", none, some "3500"]]⟩ = (true, none) :=
  (validate_csv_cases ⟨["namaitem", "konversi", "satuan", "hargapokok", "hargajual"],
      [[some "Indomie", none, some "pcs", none, some "3500"]]⟩).2.2 (by decide) (by decide)

/-- C6: `ensure_database_running` never raises: the `psycopg2.connect`
attempt either succeeds (result `True`) or fails with `OperationalError`,
which the function catches and converts to `False`. -/
theorem ensure_database_running_total (c : ConnectOutcome) :
    ∃ b : Bool, ensure_database_running c = Except.ok b ∧
      (b = true ↔ c = ConnectOutcome.connected) := by
  cases c with
  | connected => exact ⟨true, rfl, by simp⟩
  | operationalError m => exact ⟨false, rfl, by simp⟩

/-- Witness for C6: a refused connection yields `ok false`, not an
exception. -/
theorem ensure_database_running_total_witness :
    ∃ b : Bool,
      ensure_database_running (ConnectOutcome.operationalError "connection refused") =
        Except.ok b ∧
      (b = true ↔ ConnectOutcome.operationalError "connection refused" =
        ConnectOutcome.connected) :=
  ensure_database_running_total (ConnectOutcome.operationalError "connection refused")

/-- C9: because the default is applied with the falsy-or idiom
`keep_count or self.config.max_csv_files`, calling `cleanup_old_files` with
`keep_count = 0` behaves exactly like calling it with no argument: the
configured bound is used and the files are never all deleted. -/
theorem cleanup_old_files_zero_keep_count (maxCsvFiles : Nat) (files : List ExportFile) :
    cleanup_old_files maxCsvFiles (some 0) files = cleanup_old_files maxCsvFiles none files :=
  rfl

/-- C10: `validate_csv` is total at its public interface: a failing load
(`pd.read_csv` raising, for a missing or unparseable file) is caught and
converted to `(false, message)`, and a successful load is handled by the
pure checks — so a `false` first component is the only failure signal. -/
theorem validate_csv_io_total (load : Except String Csv) :
    (∀ e, load = Except.error e →
      validate_csv_io load =
        (false, some (CsvReason.loadFailure ("CSV validation failed: " ++ e)))) ∧
    (∀ df, load = Except.ok df → validate_csv_io load = validate_csv df) := by
  constructor
  · intro e he; subst he; rfl
  · intro df hdf; subst hdf; rfl

/-- Witness for C10: a nonexistent path's load error becomes a
`(false, message)` result. -/
theorem validate_csv_io_total_witness :
    validate_csv_io (Except.error "No such file or directory") =
      (false, some (CsvReason.loadFailure
        ("CSV validation failed: " ++ "No such file or directory"))) :=
  (validate_csv_io_total (Except.error "No such file or directory")).1
    "No such file or directory" rfl

/-- Every path is one of its own initial segments. -/
theorem self_mem_initialSegs : ∀ p : FsPath, p ∈ initialSegs p := by
  intro p
  induction p with
  | nil => simp [initialSegs]
  | cons x xs ih =>
    simp only [initialSegs, List.mem_cons]
    exact Or.inr (List.mem_map.mpr ⟨xs, ih, rfl⟩)

/-- After `writeBytes`, reading the written path back yields exactly the
written content. -/
theorem fileContent_writeBytes (fs : FileSystem) (p : FsPath) (c : List Nat) :
    fileContent (writeBytes fs p c) p = some c := by
  unfold fileContent writeBytes
  rw [List.find?_cons_of_pos _ (by simp)]
  rfl

/-- C8: `list_backups` on a successful listing with zero `.i5bu` entries
returns the empty list without raising; and whenever it does raise, the
error is a `DropboxError` and some transport step (token refresh or the
listing call) failed. -/
theorem list_backups_empty_ok (r : Remote) :
    (∀ entries, r.tokenOut.toBool = true → r.listOut = Except.ok entries →
      entries.filter (fun e => strEndsWith e.name ".i5bu") = [] →
      list_backups r = Except.ok []) ∧
    (∀ e, list_backups r = Except.error e →
      (∃ m, e = PyError.dropboxError m) ∧
      (r.tokenOut.toBool = false ∨ r.listOut.toBool = false)) := by
  constructor
  · intro entries htok hlist hfil
    cases htok' : r.tokenOut with
    | error t => rw [htok'] at htok; simp [Except.toBool] at htok
    | ok t =>
      simp [list_backups, refresh_access_token, htok', hlist, listBackupsPure, hfil]
  · intro e he
    cases htok' : r.tokenOut with
    | error t =>
      refine ⟨⟨"Failed to refresh access token: " ++ t, ?_⟩, Or.inl (by simp [htok', Except.toBool])⟩
      simp [list_backups, refresh_access_token, htok'] at he
      exact he.symm
    | ok t =>
      cases hlist' : r.listOut with
      | error l =>
        refine ⟨⟨"Failed to list backups: " ++ l, ?_⟩, Or.inr (by simp [hlist', Except.toBool])⟩
        simp [list_backups, refresh_access_token, htok', hlist'] at he
        exact he.symm
      | ok entries =>
        simp [list_backups, refresh_access_token, htok', hlist'] at he

/-- Witness for C8: a listing holding only a `.txt` entry yields `ok []`. -/
theorem list_backups_empty_ok_witness :
    list_backups ⟨Except.ok "tok", Except.ok [⟨"notes.txt", "/IPOS/notes.txt", 5⟩],
        Except.ok "url", Except.ok []⟩ = Except.ok [] :=
  (list_backups_empty_ok _).1 [⟨"notes.txt", "/IPOS/notes.txt", 5⟩] rfl rfl (by decide)

/-- C2: on a listing whose backup (`.i5bu`) entries have pairwise distinct
`server_modified` timestamps — non-backup entries may share timestamps
freely — `list_backups` returns the matching artifacts sorted strictly
descending by timestamp (a permutation of the filtered entries), and the
artifact `download_latest` goes on to fetch — `backups[0]` — carries the
maximum timestamp. -/
theorem list_backups_sorted_desc (entries : List Entry)
    (hdist : (entries.filter (fun e => strEndsWith e.name ".i5bu")).Pairwise
      (fun a b => a.server_modified ≠ b.server_modified)) :
    (listBackupsPure entries).Pairwise (fun a b => b.modified < a.modified) ∧
    (listBackupsPure entries).Perm
      ((entries.filter (fun e => strEndsWith e.name ".i5bu")).map entryToBackup) ∧
    (∀ sel, selectLatest (listBackupsPure entries) = some sel →
      sel ∈ listBackupsPure entries ∧
      ∀ b ∈ listBackupsPure entries, b.modified ≤ sel.modified) ∧
    (∀ r fs dest p fs2, r.listOut = Except.ok entries →
      download_latest r fs dest = Except.ok (p, fs2) →
      ∃ sel, selectLatest (listBackupsPure entries) = some sel ∧
        sel ∈ listBackupsPure entries ∧
        ∀ b ∈ listBackupsPure entries, b.modified ≤ sel.modified) := by
  have hperm : (listBackupsPure entries).Perm
      ((entries.filter (fun e => strEndsWith e.name ".i5bu")).map entryToBackup) :=
    List.perm_insertionSort _ _
  have hsorted : (listBackupsPure entries).Pairwise newestOrder :=
    List.sorted_insertionSort _ _
  have hne_mapped :
      ((entries.filter (fun e => strEndsWith e.name ".i5bu")).map entryToBackup).Pairwise
        (fun a b => a.modified ≠ b.modified) := by
    rw [List.pairwise_map]
    exact hdist
  have hne : (listBackupsPure entries).Pairwise (fun a b => a.modified ≠ b.modified) :=
    (hperm.pairwise_iff (fun hab => Ne.symm hab)).mpr hne_mapped
  have hstrict : (listBackupsPure entries).Pairwise (fun a b => b.modified < a.modified) :=
    (hsorted.and hne).imp (fun h => lt_of_le_of_ne h.1 (Ne.symm h.2))
  have hmax : ∀ sel, selectLatest (listBackupsPure entries) = some sel →
      sel ∈ listBackupsPure entries ∧
      ∀ b ∈ listBackupsPure entries, b.modified ≤ sel.modified := by
    intro sel hsel
    cases hbs : listBackupsPure entries with
    | nil => rw [hbs] at hsel; simp [selectLatest] at hsel
    | cons hd tl =>
      rw [hbs] at hsel
      simp only [selectLatest, List.head?_cons, Option.some.injEq] at hsel
      subst hsel
      have hcons := List.pairwise_cons.mp (hbs ▸ hsorted)
      constructor
      · exact List.mem_cons_self _ _
      · intro b hb
        rcases List.mem_cons.mp hb with hb | hb
        · rw [hb]
        · exact hcons.1 b hb
  refine ⟨hstrict, hperm, hmax, ?_⟩
  intro r fs dest p fs2 hlist hok
  cases hl : list_backups r with
  | error e => simp [download_latest, hl] at hok
  | ok bs =>
    have hbs : bs = listBackupsPure entries := by
      cases htok : r.tokenOut with
      | error t => simp [list_backups, refresh_access_token, htok] at hl
      | ok t =>
        simp [list_backups, refresh_access_token, htok, hlist] at hl
        exact hl.symm
    rw [hbs] at hl
    cases hsel : selectLatest (listBackupsPure entries) with
    | none => simp [download_latest, hl, hsel] at hok
    | some sel => exact ⟨sel, rfl, hmax sel hsel⟩

/-- Witness for C2: the backups dated 5 and 7 come out strictly descending
even though a non-backup `notes.txt` entry shares the timestamp 5. -/
theorem list_backups_sorted_desc_witness :
    (listBackupsPure [⟨"a.i5bu", "/IPOS/a.i5bu", 5⟩, ⟨"notes.txt", "/IPOS/notes.txt", 5⟩,
        ⟨"b.i5bu", "/IPOS/b.i5bu", 7⟩]).Pairwise
      (fun a b => b.modified < a.modified) :=
  (list_backups_sorted_desc [⟨"a.i5bu", "/IPOS/a.i5bu", 5⟩, ⟨"notes.txt", "/IPOS/notes.txt", 5⟩,
      ⟨"b.i5bu", "/IPOS/b.i5bu", 7⟩]
    (by decide)).1

/-- C7: `download_latest` raises `DropboxError` whenever the backup listing
is empty or any network step (token refresh, listing, temporary link, bulk
GET) fails; on success it returns the destination path, the destination's
parent directory exists, and the destination holds exactly the downloaded
byte content. -/
theorem download_latest_contract (r : Remote) (fs : FileSystem) (dest : FsPath) :
    ((∃ entries, r.listOut = Except.ok entries ∧ listBackupsPure entries = []) ∨
      r.tokenOut.toBool = false ∨ r.listOut.toBool = false ∨
      r.linkOut.toBool = false ∨ r.fetchOut.toBool = false →
      ∃ m, download_latest r fs dest = Except.error (PyError.dropboxError m)) ∧
    (∀ p fs2, download_latest r fs dest = Except.ok (p, fs2) →
      p = dest ∧ dest.dropLast ∈ fs2.dirs ∧
      ∃ content, r.fetchOut = Except.ok content ∧ fileContent fs2 dest = some content) := by
  cases htok : r.tokenOut with
  | error t =>
    constructor
    · intro _
      exact ⟨"Failed to refresh access token: " ++ t,
        by simp [download_latest, list_backups, refresh_access_token, htok]⟩
    · intro p fs2 hok
      simp [download_latest, list_backups, refresh_access_token, htok] at hok
  | ok t =>
    cases hlist : r.listOut with
    | error l =>
      constructor
      · intro _
        exact ⟨"Failed to list backups: " ++ l,
          by simp [download_latest, list_backups, refresh_access_token, htok, hlist]⟩
      · intro p fs2 hok
        simp [download_latest, list_backups, refresh_access_token, htok, hlist] at hok
    | ok entries =>
      cases hsel : selectLatest (listBackupsPure entries) with
      | none =>
        constructor
        · intro _
          exact ⟨"No backup files found",
            by simp [download_latest, list_backups, refresh_access_token, htok, hlist, hsel]⟩
        · intro p fs2 hok
          simp [download_latest, list_backups, refresh_access_token, htok, hlist, hsel] at hok
      | some latest =>
        cases hlink : r.linkOut with
        | error l =>
          constructor
          · intro _
            exact ⟨"Failed to download backup: " ++ l,
              by simp [download_latest, list_backups, refresh_access_token, htok, hlist,
                hsel, hlink]⟩
          · intro p fs2 hok
            simp [download_latest, list_backups, refresh_access_token, htok, hlist, hsel,
              hlink] at hok
        | ok url =>
          cases hfetch : r.fetchOut with
          | error l =>
            constructor
            · intro _
              exact ⟨"Failed to download backup: " ++ l,
                by simp [download_latest, list_backups, refresh_access_token, htok, hlist,
                  hsel, hlink, hfetch]⟩
            · intro p fs2 hok
              simp [download_latest, list_backups, refresh_access_token, htok, hlist, hsel,
                hlink, hfetch] at hok
          | ok content =>
            constructor
            · intro h
              rcases h with ⟨entries', he, hnil⟩ | h | h | h | h
              · injection he with he
                subst he
                rw [hnil] at hsel
                simp [selectLatest] at hsel
              · simp [Except.toBool] at h
              · simp [Except.toBool] at h
              · simp [Except.toBool] at h
              · simp [Except.toBool] at h
            · intro p fs2 hok
              simp only [download_latest, list_backups, refresh_access_token, htok, hlist,
                hsel, hlink, hfetch, Except.ok.injEq, Prod.mk.injEq] at hok
              obtain ⟨hp, hfs⟩ := hok
              subst hp
              refine ⟨rfl, ?_, content, rfl, ?_⟩
              · rw [← hfs]
                exact List.mem_append_left _ (self_mem_initialSegs _)
              · rw [← hfs]
                exact fileContent_writeBytes _ _ _

/-- Witness for C7: an empty Dropbox folder makes `download_latest` fail
with a `DropboxError`. -/
theorem download_latest_contract_witness :
    ∃ m, download_latest ⟨Except.ok "tok", Except.ok [], Except.ok "url", Except.ok [7]⟩
        ⟨[], []⟩ ["data", "backups", "b.i5bu"] =
      Except.error (PyError.dropboxError m) :=
  (download_latest_contract ⟨Except.ok "tok", Except.ok [], Except.ok "url", Except.ok [7]⟩
      ⟨[], []⟩ ["data", "backups", "b.i5bu"]).1 (Or.inl ⟨[], rfl, rfl⟩)

/-- In a strictly newest-first list, membership of the first `k` positions is
equivalent to having fewer than `k` strictly newer elements. -/
theorem mem_take_iff_newer_lt :
    ∀ s : List ExportFile, s.Pairwise (fun a b => b.mtime < a.mtime) →
      ∀ f ∈ s, ∀ k : Nat,
        (f ∈ s.take k ↔ s.countP (fun g => decide (f.mtime < g.mtime)) < k) := by
  intro s
  induction s with
  | nil => intro _ f hf; simp at hf
  | cons a t ih =>
    intro hpw f hf k
    have ha : ∀ b ∈ t, b.mtime < a.mtime := (List.pairwise_cons.mp hpw).1
    have ht := (List.pairwise_cons.mp hpw).2
    rcases List.mem_cons.mp hf with rfl | hft
    · have hcount : (f :: t).countP (fun g => decide (f.mtime < g.mtime)) = 0 := by
        apply List.countP_eq_zero.mpr
        intro g hg
        rcases List.mem_cons.mp hg with rfl | hgt
        · simp
        · simp only [decide_eq_true_eq]
          exact not_lt.mpr (le_of_lt (ha g hgt))
      rw [hcount]
      cases k with
      | zero => simp
      | succ k => simp
    · have hfa : f.mtime < a.mtime := ha f hft
      have hcount : (a :: t).countP (fun g => decide (f.mtime < g.mtime)) =
          t.countP (fun g => decide (f.mtime < g.mtime)) + 1 := by
        rw [List.countP_cons_of_pos]
        simp [hfa]
      cases k with
      | zero => simp
      | succ k =>
        have hfna : f ≠ a := fun h => absurd hfa (by rw [h]; exact lt_irrefl _)
        rw [hcount]
        simp only [List.take_succ_cons, List.mem_cons]
        constructor
        · intro h
          rcases h with h | h
          · exact absurd h hfna
          · exact Nat.succ_lt_succ ((ih ht f hft k).mp h)
        · intro h
          exact Or.inr ((ih ht f hft k).mpr (Nat.lt_of_succ_lt_succ h))

/-- C5: for `N` csv export files with pairwise distinct modification times
and `0 < k < N`, `cleanup_old_files` with `keep_count = k` leaves exactly
`k` files — precisely those with fewer than `k` strictly newer files — and
running it again immediately deletes nothing. -/
theorem cleanup_old_files_retention (m k : Nat) (files : List ExportFile)
    (hcsv : ∀ f ∈ files, strEndsWith f.name ".csv" = true)
    (hmt : files.Pairwise (fun a b => a.mtime ≠ b.mtime))
    (hnames : (files.map ExportFile.name).Nodup)
    (hk0 : 0 < k) (hkN : k < files.length) :
    (cleanup_old_files m (some k) files).length = k ∧
    (∀ f ∈ files, (f ∈ cleanup_old_files m (some k) files ↔
      files.countP (fun g => decide (f.mtime < g.mtime)) < k)) ∧
    cleanup_old_files m (some k) (cleanup_old_files m (some k) files) =
      cleanup_old_files m (some k) files := by
  have hkne : k ≠ 0 := Nat.pos_iff_ne_zero.mp hk0
  have hres : ∀ l : List ExportFile, csvGlob l = l →
      cleanup_old_files m (some k) l =
        l.filter (fun f =>
          ¬ (((List.insertionSort recentOrder l).drop k).map ExportFile.name).contains
            f.name) := by
    intro l hl
    simp only [cleanup_old_files, hl]
    rw [if_neg hkne]
  have hglob : csvGlob files = files := List.filter_eq_self.mpr hcsv
  have hperm : (List.insertionSort recentOrder files).Perm files :=
    List.perm_insertionSort _ _
  have hsorted : (List.insertionSort recentOrder files).Pairwise recentOrder :=
    List.sorted_insertionSort _ _
  have hlen : (List.insertionSort recentOrder files).length = files.length :=
    List.length_insertionSort _ _
  have hmt_s : (List.insertionSort recentOrder files).Pairwise
      (fun a b => a.mtime ≠ b.mtime) :=
    (hperm.pairwise_iff (fun hab => Ne.symm hab)).mpr hmt
  have hstrict : (List.insertionSort recentOrder files).Pairwise
      (fun a b => b.mtime < a.mtime) :=
    (hsorted.and hmt_s).imp (fun h => lt_of_le_of_ne h.1 (Ne.symm h.2))
  have hnames_s : ((List.insertionSort recentOrder files).map ExportFile.name).Nodup :=
    (hperm.map _).nodup_iff.mpr hnames
  have hnodup_s : (List.insertionSort recentOrder files).Nodup :=
    hnames_s.of_map _
  have hpairname : files.Pairwise (fun a b => a.name ≠ b.name) :=
    List.pairwise_map.mp hnames
  have hsymmName : Symmetric (fun a b : ExportFile => a.name ≠ b.name) :=
    fun _ _ h => Ne.symm h
  have hinj : ∀ f ∈ files, ∀ g ∈ files, f.name = g.name → f = g := by
    intro f hf g hg hfg
    by_contra hne
    exact (hpairname.forall hsymmName hf hg hne) hfg
  -- a file of the directory is among the deleted names iff it is one of the
  -- dropped (older) sorted files
  have hdel : ∀ f ∈ files,
      ((((List.insertionSort recentOrder files).drop k).map ExportFile.name).contains
          f.name = true ↔
        f ∈ (List.insertionSort recentOrder files).drop k) := by
    intro f hf
    constructor
    · intro hc
      obtain ⟨g, hg, hgname⟩ := List.mem_map.mp (List.mem_of_elem_eq_true hc)
      have hgf : g ∈ files := hperm.mem_iff.mp (List.mem_of_mem_drop hg)
      have : g = f := hinj g hgf f hf hgname
      exact this ▸ hg
    · intro hfd
      exact List.elem_eq_true_of_mem (List.mem_map.mpr ⟨f, hfd, rfl⟩)
  -- the survivors are exactly the first k sorted files
  have hfilter_take : (List.insertionSort recentOrder files).filter (fun f =>
      ¬ (((List.insertionSort recentOrder files).drop k).map ExportFile.name).contains
        f.name) = (List.insertionSort recentOrder files).take k := by
    have hdisj : ((List.insertionSort recentOrder files).take k).Disjoint
        ((List.insertionSort recentOrder files).drop k) :=
      (List.nodup_append.mp (by rw [List.take_append_drop]; exact hnodup_s)).2.2
    have h1 : ((List.insertionSort recentOrder files).take k).filter (fun f =>
        ¬ (((List.insertionSort recentOrder files).drop k).map ExportFile.name).contains
          f.name) = (List.insertionSort recentOrder files).take k := by
      apply List.filter_eq_self.mpr
      intro f hfT
      have hfs : f ∈ files := hperm.mem_iff.mp (List.mem_of_mem_take hfT)
      simp only [decide_eq_true_eq]
      intro hc
      exact hdisj hfT ((hdel f hfs).mp hc)
    have h2 : ((List.insertionSort recentOrder files).drop k).filter (fun f =>
        ¬ (((List.insertionSort recentOrder files).drop k).map ExportFile.name).contains
          f.name) = [] := by
      apply List.filter_eq_nil_iff.mpr
      intro f hfD
      simp only [decide_eq_true_eq, not_not]
      exact List.elem_eq_true_of_mem (List.mem_map.mpr ⟨f, hfD, rfl⟩)
    have happ : (((List.insertionSort recentOrder files).take k ++
        (List.insertionSort recentOrder files).drop k).filter (fun f =>
          ¬ (((List.insertionSort recentOrder files).drop k).map ExportFile.name).contains
            f.name)) = (List.insertionSort recentOrder files).take k := by
      rw [List.filter_append, h1, h2, List.append_nil]
    rw [List.take_append_drop] at happ
    exact happ
  have hresult : cleanup_old_files m (some k) files =
      files.filter (fun f =>
        ¬ (((List.insertionSort recentOrder files).drop k).map ExportFile.name).contains
          f.name) := hres files hglob
  have hresult_perm : (cleanup_old_files m (some k) files).Perm
      ((List.insertionSort recentOrder files).take k) := by
    rw [hresult, ← hfilter_take]
    exact (hperm.filter _).symm
  have hklen : k ≤ (List.insertionSort recentOrder files).length := by
    rw [hlen]; exact le_of_lt hkN
  have hlenk : (cleanup_old_files m (some k) files).length = k := by
    rw [hresult_perm.length_eq]
    exact List.length_take_of_le hklen
  refine ⟨hlenk, ?_, ?_⟩
  · intro f hf
    have hfs : f ∈ List.insertionSort recentOrder files := hperm.mem_iff.mpr hf
    rw [hresult_perm.mem_iff, mem_take_iff_newer_lt _ hstrict f hfs k,
      hperm.countP_eq]
  · -- idempotence: the survivors are k files, so a second pass drops none
    have hcsv2 : ∀ f ∈ cleanup_old_files m (some k) files,
        strEndsWith f.name ".csv" = true := by
      intro f hf
      rw [hresult] at hf
      exact hcsv f (List.mem_of_mem_filter hf)
    have hglob2 : csvGlob (cleanup_old_files m (some k) files) =
        cleanup_old_files m (some k) files := List.filter_eq_self.mpr hcsv2
    rw [hres _ hglob2]
    have hdrop2 : (List.insertionSort recentOrder
        (cleanup_old_files m (some k) files)).drop k = [] := by
      apply List.drop_eq_nil_of_le
      rw [List.length_insertionSort, hlenk]
    rw [hdrop2]
    apply List.filter_eq_self.mpr
    intro f _
    simp

/-- Witness for C5: three csv files with distinct mtimes, `k = 2`: the two
newest survive, the oldest is deleted, and the pass is idempotent. -/
theorem cleanup_old_files_retention_witness :
    (cleanup_old_files 5 (some 2)
        [⟨"a.csv", 10⟩, ⟨"b.csv", 30⟩, ⟨"c.csv", 20⟩]).length = 2 ∧
    (∀ f ∈ ([⟨"a.csv", 10⟩, ⟨"b.csv", 30⟩, ⟨"c.csv", 20⟩] : List ExportFile),
      (f ∈ cleanup_old_files 5 (some 2) [⟨"a.csv", 10⟩, ⟨"b.csv", 30⟩, ⟨"c.csv", 20⟩] ↔
        ([⟨"a.csv", 10⟩, ⟨"b.csv", 30⟩, ⟨"c.csv", 20⟩] : List ExportFile).countP
          (fun g => decide (f.mtime < g.mtime)) < 2)) ∧
    cleanup_old_files 5 (some 2)
        (cleanup_old_files 5 (some 2) [⟨"a.csv", 10⟩, ⟨"b.csv", 30⟩, ⟨"c.csv", 20⟩]) =
      cleanup_old_files 5 (some 2) [⟨"a.csv", 10⟩, ⟨"b.csv", 30⟩, ⟨"c.csv", 20⟩] :=
  cleanup_old_files_retention 5 2 [⟨"a.csv", 10⟩, ⟨"b.csv", 30⟩, ⟨"c.csv", 20⟩]
    (by decide) (by decide) (by decide) (by decide) (by decide)

/-- C1: `main` is fail-fast — whenever a stage raises or returns an explicit
false result, no later stage executes (in particular a failed CSV validation
means cleanup never runs) — and the exit status is `0` exactly when
configuration loading and every one of the seven stages completed
successfully; any failure exits `1`. -/
theorem sync_fail_fast_and_exit_zero_iff (env : SyncEnv) :
    ((runSync env).1 = 0 ↔ (env.configOk = true ∧ ∀ s : Stage, stageOk env s = true)) ∧
    (∀ s t : Stage, stageOk env s = false → s.idx < t.idx → t ∉ (runSync env).2) ∧
    ((validate_csv_io env.csvLoad).1 = false → Stage.cleanup ∉ (runSync env).2) := by
  cases hcfg : env.configOk with
  | false =>
    have hrun : runSync env = (1, []) := by simp [runSync, hcfg]
    refine ⟨?_, ?_, ?_⟩
    · rw [hrun]
      exact iff_of_false (by simp) (fun h => by simp at h)
    · intro s t _ _; rw [hrun]; simp
    · intro _; rw [hrun]; simp
  | true =>
  cases hdl : download_latest env.remote env.fs env.destBackup with
  | error e =>
    have hrun : runSync env = (1, allStages.take 1) := by simp [runSync, hcfg, hdl]
    have hfail : stageOk env Stage.download = false := by simp [stageOk, hdl, Except.toBool]
    refine ⟨?_, ?_, ?_⟩
    · rw [hrun]
      refine iff_of_false (by simp) ?_
      rintro ⟨_, hall⟩
      rw [hall Stage.download] at hfail
      simp at hfail
    · intro s t hs hlt
      rw [hrun]
      have htidx : 1 ≤ t.idx := by omega
      cases t <;> first | exact absurd htidx (by decide) | decide
    · intro _; rw [hrun]; decide
  | ok dl =>
  cases hvb : validate_backup_file env.backupExists env.backupSize with
  | error e =>
    have hrun : runSync env = (1, allStages.take 2) := by simp [runSync, hcfg, hdl, hvb]
    have hfail : stageOk env Stage.validateBackup = false := by simp [stageOk, hvb]
    have hok_before : ∀ u : Stage, u.idx < 1 → stageOk env u = true := by
      intro u hu
      cases u
      case download => simp [stageOk, hdl, Except.toBool]
      all_goals exact absurd hu (by decide)
    refine ⟨?_, ?_, ?_⟩
    · rw [hrun]
      refine iff_of_false (by simp) ?_
      rintro ⟨_, hall⟩
      rw [hall Stage.validateBackup] at hfail
      simp at hfail
    · intro s t hs hlt
      rw [hrun]
      have hsidx : 1 ≤ s.idx := by
        by_contra hcon
        push_neg at hcon
        rw [hok_before s hcon] at hs
        simp at hs
      have htidx : 2 ≤ t.idx := by omega
      cases t <;> first | exact absurd htidx (by decide) | decide
    · intro _; rw [hrun]; decide
  | ok bvb =>
  cases bvb with
  | false =>
    have hrun : runSync env = (1, allStages.take 2) := by simp [runSync, hcfg, hdl, hvb]
    have hfail : stageOk env Stage.validateBackup = false := by simp [stageOk, hvb]
    have hok_before : ∀ u : Stage, u.idx < 1 → stageOk env u = true := by
      intro u hu
      cases u
      case download => simp [stageOk, hdl, Except.toBool]
      all_goals exact absurd hu (by decide)
    refine ⟨?_, ?_, ?_⟩
    · rw [hrun]
      refine iff_of_false (by simp) ?_
      rintro ⟨_, hall⟩
      rw [hall Stage.validateBackup] at hfail
      simp at hfail
    · intro s t hs hlt
      rw [hrun]
      have hsidx : 1 ≤ s.idx := by
        by_contra hcon
        push_neg at hcon
        rw [hok_before s hcon] at hs
        simp at hs
      have htidx : 2 ≤ t.idx := by omega
      cases t <;> first | exact absurd htidx (by decide) | decide
    · intro _; rw [hrun]; decide
  | true =>
  cases hready : ensure_database_running env.dbConnect with
  | error e =>
    have hrun : runSync env = (1, allStages.take 3) := by simp [runSync, hcfg, hdl, hvb, hready]
    have hfail : stageOk env Stage.readiness = false := by simp [stageOk, hready]
    have hok_before : ∀ u : Stage, u.idx < 2 → stageOk env u = true := by
      intro u hu
      cases u
      case download => simp [stageOk, hdl, Except.toBool]
      case validateBackup => simp [stageOk, hvb]
      all_goals exact absurd hu (by decide)
    refine ⟨?_, ?_, ?_⟩
    · rw [hrun]
      refine iff_of_false (by simp) ?_
      rintro ⟨_, hall⟩
      rw [hall Stage.readiness] at hfail
      simp at hfail
    · intro s t hs hlt
      rw [hrun]
      have hsidx : 2 ≤ s.idx := by
        by_contra hcon
        push_neg at hcon
        rw [hok_before s hcon] at hs
        simp at hs
      have htidx : 3 ≤ t.idx := by omega
      cases t <;> first | exact absurd htidx (by decide) | decide
    · intro _; rw [hrun]; decide
  | ok running =>
  cases running with
  | false =>
    have hrun : runSync env = (1, allStages.take 3) := by simp [runSync, hcfg, hdl, hvb, hready]
    have hfail : stageOk env Stage.readiness = false := by simp [stageOk, hready]
    have hok_before : ∀ u : Stage, u.idx < 2 → stageOk env u = true := by
      intro u hu
      cases u
      case download => simp [stageOk, hdl, Except.toBool]
      case validateBackup => simp [stageOk, hvb]
      all_goals exact absurd hu (by decide)
    refine ⟨?_, ?_, ?_⟩
    · rw [hrun]
      refine iff_of_false (by simp) ?_
      rintro ⟨_, hall⟩
      rw [hall Stage.readiness] at hfail
      simp at hfail
    · intro s t hs hlt
      rw [hrun]
      have hsidx : 2 ≤ s.idx := by
        by_contra hcon
        push_neg at hcon
        rw [hok_before s hcon] at hs
        simp at hs
      have htidx : 3 ≤ t.idx := by omega
      cases t <;> first | exact absurd htidx (by decide) | decide
    · intro _; rw [hrun]; decide
  | true =>
  cases hrest : restore_database env.dropRes env.createRes env.restoreRes with
  | error e =>
    have hrun : runSync env = (1, allStages.take 4) := by
      simp [runSync, hcfg, hdl, hvb, hready, hrest]
    have hfail : stageOk env Stage.restore = false := by simp [stageOk, hrest]
    have hok_before : ∀ u : Stage, u.idx < 3 → stageOk env u = true := by
      intro u hu
      cases u
      case download => simp [stageOk, hdl, Except.toBool]
      case validateBackup => simp [stageOk, hvb]
      case readiness => simp [stageOk, hready]
      all_goals exact absurd hu (by decide)
    refine ⟨?_, ?_, ?_⟩
    · rw [hrun]
      refine iff_of_false (by simp) ?_
      rintro ⟨_, hall⟩
      rw [hall Stage.restore] at hfail
      simp at hfail
    · intro s t hs hlt
      rw [hrun]
      have hsidx : 3 ≤ s.idx := by
        by_contra hcon
        push_neg at hcon
        rw [hok_before s hcon] at hs
        simp at hs
      have htidx : 4 ≤ t.idx := by omega
      cases t <;> first | exact absurd htidx (by decide) | decide
    · intro _; rw [hrun]; decide
  | ok restored =>
  cases restored with
  | false =>
    have hrun : runSync env = (1, allStages.take 4) := by
      simp [runSync, hcfg, hdl, hvb, hready, hrest]
    have hfail : stageOk env Stage.restore = false := by simp [stageOk, hrest]
    have hok_before : ∀ u : Stage, u.idx < 3 → stageOk env u = true := by
      intro u hu
      cases u
      case download => simp [stageOk, hdl, Except.toBool]
      case validateBackup => simp [stageOk, hvb]
      case readiness => simp [stageOk, hready]
      all_goals exact absurd hu (by decide)
    refine ⟨?_, ?_, ?_⟩
    · rw [hrun]
      refine iff_of_false (by simp) ?_
      rintro ⟨_, hall⟩
      rw [hall Stage.restore] at hfail
      simp at hfail
    · intro s t hs hlt
      rw [hrun]
      have hsidx : 3 ≤ s.idx := by
        by_contra hcon
        push_neg at hcon
        rw [hok_before s hcon] at hs
        simp at hs
      have htidx : 4 ≤ t.idx := by omega
      cases t <;> first | exact absurd htidx (by decide) | decide
    · intro _; rw [hrun]; decide
  | true =>
  cases hexp : env.exportOut with
  | error e =>
    have hrun : runSync env = (1, allStages.take 5) := by
      simp [runSync, hcfg, hdl, hvb, hready, hrest, hexp]
    have hfail : stageOk env Stage.exportCsv = false := by simp [stageOk, hexp, Except.toBool]
    have hok_before : ∀ u : Stage, u.idx < 4 → stageOk env u = true := by
      intro u hu
      cases u
      case download => simp [stageOk, hdl, Except.toBool]
      case validateBackup => simp [stageOk, hvb]
      case readiness => simp [stageOk, hready]
      case restore => simp [stageOk, hrest]
      all_goals exact absurd hu (by decide)
    refine ⟨?_, ?_, ?_⟩
    · rw [hrun]
      refine iff_of_false (by simp) ?_
      rintro ⟨_, hall⟩
      rw [hall Stage.exportCsv] at hfail
      simp at hfail
    · intro s t hs hlt
      rw [hrun]
      have hsidx : 4 ≤ s.idx := by
        by_contra hcon
        push_neg at hcon
        rw [hok_before s hcon] at hs
        simp at hs
      have htidx : 5 ≤ t.idx := by omega
      cases t <;> first | exact absurd htidx (by decide) | decide
    · intro _; rw [hrun]; decide
  | ok uexp =>
  cases hcsvv : validate_csv_io env.csvLoad with
  | mk fst snd =>
  cases fst with
  | false =>
    have hrun : runSync env = (1, allStages.take 6) := by
      simp [runSync, hcfg, hdl, hvb, hready, hrest, hexp, hcsvv]
    have hfail : stageOk env Stage.validateCsv = false := by simp [stageOk, hcsvv]
    have hok_before : ∀ u : Stage, u.idx < 5 → stageOk env u = true := by
      intro u hu
      cases u
      case download => simp [stageOk, hdl, Except.toBool]
      case validateBackup => simp [stageOk, hvb]
      case readiness => simp [stageOk, hready]
      case restore => simp [stageOk, hrest]
      case exportCsv => simp [stageOk, hexp, Except.toBool]
      all_goals exact absurd hu (by decide)
    refine ⟨?_, ?_, ?_⟩
    · rw [hrun]
      refine iff_of_false (by simp) ?_
      rintro ⟨_, hall⟩
      rw [hall Stage.validateCsv] at hfail
      simp at hfail
    · intro s t hs hlt
      rw [hrun]
      have hsidx : 5 ≤ s.idx := by
        by_contra hcon
        push_neg at hcon
        rw [hok_before s hcon] at hs
        simp at hs
      have htidx : 6 ≤ t.idx := by omega
      cases t <;> first | exact absurd htidx (by decide) | decide
    · intro _; rw [hrun]; decide
  | true =>
  cases hclean : env.cleanupOut with
  | error e =>
    have hrun : runSync env = (1, allStages.take 7) := by
      simp [runSync, hcfg, hdl, hvb, hready, hrest, hexp, hcsvv, hclean]
    have hfail : stageOk env Stage.cleanup = false := by simp [stageOk, hclean, Except.toBool]
    have hok_before : ∀ u : Stage, u.idx < 6 → stageOk env u = true := by
      intro u hu
      cases u
      case download => simp [stageOk, hdl, Except.toBool]
      case validateBackup => simp [stageOk, hvb]
      case readiness => simp [stageOk, hready]
      case restore => simp [stageOk, hrest]
      case exportCsv => simp [stageOk, hexp, Except.toBool]
      case validateCsv => simp [stageOk, hcsvv]
      all_goals exact absurd hu (by decide)
    refine ⟨?_, ?_, ?_⟩
    · rw [hrun]
      refine iff_of_false (by simp) ?_
      rintro ⟨_, hall⟩
      rw [hall Stage.cleanup] at hfail
      simp at hfail
    · intro s t hs hlt
      rw [hrun]
      have hsidx : 6 ≤ s.idx := by
        by_contra hcon
        push_neg at hcon
        rw [hok_before s hcon] at hs
        simp at hs
      have htidx : 7 ≤ t.idx := by omega
      cases t <;> exact absurd htidx (by decide)
    · intro hv
      simp at hv
  | ok uclean =>
    have hrun : runSync env = (0, allStages.take 7) := by
      simp [runSync, hcfg, hdl, hvb, hready, hrest, hexp, hcsvv, hclean]
    have hall : ∀ u : Stage, stageOk env u = true := by
      intro u
      cases u <;>
        simp [stageOk, hdl, hvb, hready, hrest, hexp, hcsvv, hclean, Except.toBool]
    refine ⟨iff_of_true (by rw [hrun]) ⟨rfl, hall⟩, ?_, ?_⟩
    · intro s t hs _
      rw [hall s] at hs
      simp at hs
    · intro hv
      simp at hv

/-- Witness for C1 (end-to-end scenario C): an export file with only the
`namaitem` column fails CSV validation and the cleanup stage never runs. -/
theorem sync_fail_fast_witness :
    Stage.cleanup ∉ (runSync
      { configOk := true,
        remote := ⟨Except.ok "tok", Except.ok [⟨"b.i5bu", "/IPOS/b.i5bu", 1⟩],
          Except.ok "url", Except.ok [1, 2]⟩,
        fs := ⟨[], []⟩,
        destBackup := ["data", "backups", "b.i5bu"],
        backupExists := true, backupSize := 64,
        dbConnect := ConnectOutcome.connected,
        dropRes := ⟨0, ""⟩, createRes := ⟨0, ""⟩, restoreRes := ⟨0, ""⟩,
        exportOut := Except.ok (),
        csvLoad := Except.ok ⟨["namaitem"], [[some "Indomie"]]⟩,
        cleanupOut := Except.ok () }).2 :=
  (sync_fail_fast_and_exit_zero_iff _).2.2 (by decide)

end TokoBot
